import Mathlib

/-!
The `stop <workspace-id>` command of the local app.

A shallow embedding of `components/local-app/cmd/workspace-stop.go`
(`stopWorkspaceCommand.RunE`) and theorems about its convergence-monitoring
protocol: target resolution, the short-circuit checks on the phase reported by
the stop request, and the receive loop over the status stream.

The command talks to four collaborators (the workspace selector, the client
factory, the stop request and the status stream).  They are collected in `Env`;
every call to one of them and every line written with `fmt.Println` is recorded,
in program order, in the trace of a `Run`.
-/

namespace WorkspaceStop

/-! ## Data model -/

/-- Modelled from the spec: the enumeration `v1.WorkspaceInstanceStatus_Phase`
is declared outside the sources at hand; the constants are the canonical
values the spec's data model lists, under the names the command uses
(`v1.WorkspaceInstanceStatus_PHASE_STOPPED`, ...). -/
inductive WorkspaceInstanceStatus_Phase where
  | PHASE_UNSPECIFIED
  | PHASE_PENDING
  | PHASE_CREATING
  | PHASE_INITIALIZING
  | PHASE_RUNNING
  | PHASE_INTERRUPTED
  | PHASE_STOPPING
  | PHASE_STOPPED
  deriving DecidableEq, Repr

open WorkspaceInstanceStatus_Phase (PHASE_UNSPECIFIED PHASE_PENDING PHASE_CREATING
  PHASE_INITIALIZING PHASE_RUNNING PHASE_INTERRUPTED PHASE_STOPPING PHASE_STOPPED)

/-- The generated `Phase.String()`: the name of the enumeration constant. -/
def WorkspaceInstanceStatus_Phase.String : WorkspaceInstanceStatus_Phase → String
  | PHASE_UNSPECIFIED => "PHASE_UNSPECIFIED"
  | PHASE_PENDING => "PHASE_PENDING"
  | PHASE_CREATING => "PHASE_CREATING"
  | PHASE_INITIALIZING => "PHASE_INITIALIZING"
  | PHASE_RUNNING => "PHASE_RUNNING"
  | PHASE_INTERRUPTED => "PHASE_INTERRUPTED"
  | PHASE_STOPPING => "PHASE_STOPPING"
  | PHASE_STOPPED => "PHASE_STOPPED"

/-- The message `*v1.WorkspaceInstanceStatus`, reduced to the field the command
reads. -/
structure WorkspaceInstanceStatus where
  Phase : WorkspaceInstanceStatus_Phase
  deriving DecidableEq, Repr

/-- The message `*v1.WorkspaceInstance`; `Status` is a pointer and may be nil
(`none`). -/
structure WorkspaceInstance where
  Status : Option WorkspaceInstanceStatus
  deriving DecidableEq, Repr

/-- The message `*v1.WorkspaceStatus`; `Instance` is a pointer and may be
nil. -/
structure WorkspaceStatus where
  Instance : Option WorkspaceInstance
  deriving DecidableEq, Repr

/-- The message `*v1.Workspace`; `Status` is a pointer and may be nil. -/
structure Workspace where
  Status : Option WorkspaceStatus
  deriving DecidableEq, Repr

/-- The message `*v1.StopWorkspaceResponse`; `Result` may be nil. -/
structure StopWorkspaceResponse where
  Result : Option Workspace
  deriving DecidableEq, Repr

/-- The message `*v1.StreamWorkspaceStatusResponse`; `Result` may be nil. -/
structure StreamWorkspaceStatusResponse where
  Result : Option WorkspaceStatus
  deriving DecidableEq, Repr

/-- What `stream.Msg()` hands to the loop body: a message pointer, possibly
nil. -/
abbrev Notification := Option StreamWorkspaceStatusResponse

/-- A status stream as the client exposes it: the messages for which
`Receive()` returns true, in arrival order, and the error `Err()` reports once
`Receive()` has returned false (`none` for a clean close). -/
structure Stream where
  msgs : List Notification
  err : Option String
  deriving DecidableEq, Repr

/-- The collaborators of the command.  `SelectWorkspace` receives the filter
predicate; `GetGitpodClient` is the error of the client factory, if any;
`StopWorkspace` and `StreamWorkspaceStatus` answer a request for a workspace
id with a response or an error. -/
structure Env where
  SelectWorkspace : (Workspace → Option Bool) → String
  GetGitpodClient : Option String
  StopWorkspace : String → Except String StopWorkspaceResponse
  StreamWorkspaceStatus : String → Except String Stream

/-- One observable action of the command. -/
inductive Event where
  | SelectWorkspace
  | GetGitpodClient
  | StopWorkspace (workspaceID : String)
  | StreamWorkspaceStatus (workspaceID : String)
  | Receive
  | Println (line : String)
  deriving DecidableEq, Repr

/-- How an invocation of `RunE` ends: it returns nil or an error, the process
is ended by `log.Fatalf` with a message, or a nil pointer is dereferenced. -/
inductive Outcome where
  | returned (err : Option String)
  | fatal (msg : String)
  | nilDereference
  deriving DecidableEq, Repr

/-- An invocation: the actions it performed, in order, and how it ended. -/
structure Run where
  trace : List Event
  outcome : Outcome
  deriving DecidableEq, Repr

/-- Put actions performed earlier in front of a run. -/
def Run.after (evs : List Event) (r : Run) : Run :=
  { trace := evs ++ r.trace, outcome := r.outcome }

/-- The lines written with `fmt.Println`, in order. -/
def displayed : List Event → List String
  | [] => []
  | Event.Println s :: evs => s :: displayed evs
  | _ :: evs => displayed evs

/-- Number of calls of `stream.Receive()`. -/
def receiveCount (evs : List Event) : Nat :=
  evs.count Event.Receive

/-- Whether a status stream was opened. -/
def opensStream : List Event → Bool
  | [] => false
  | Event.StreamWorkspaceStatus _ :: _ => true
  | _ :: evs => opensStream evs

/-- The workspace ids of the requests sent to the client, in order. -/
def requestIds : List Event → List String
  | [] => []
  | Event.StopWorkspace id :: evs => id :: requestIds evs
  | Event.StreamWorkspaceStatus id :: evs => id :: requestIds evs
  | _ :: evs => requestIds evs

/-- Whether the selector was called. -/
def callsSelector : List Event → Bool
  | [] => false
  | Event.SelectWorkspace :: _ => true
  | _ :: evs => callsSelector evs

/-! ## The command -/

/-- The filter closure: `ws.GetStatus().Instance.Status.Phase != PHASE_STOPPED`.
`GetStatus()` tolerates a nil receiver; the field reads `.Instance`, `.Status`
and `.Phase` dereference their pointer, so a nil one ends the evaluation
(`none`). -/
def filter (ws : Workspace) : Option Bool :=
  match ws.Status with
  | none => none
  | some st =>
    match st.Instance with
    | none => none
    | some inst =>
      match inst.Status with
      | none => none
      | some s => some (decide (s.Phase ≠ PHASE_STOPPED))

/-- The read `wsInfo.Msg.GetResult().Status.Instance.Status.Phase`. -/
def stopResponsePhase (msg : StopWorkspaceResponse) : Option WorkspaceInstanceStatus_Phase :=
  match msg.Result with
  | none => none
  | some ws =>
    match ws.Status with
    | none => none
    | some st =>
      match st.Instance with
      | none => none
      | some inst =>
        match inst.Status with
        | none => none
        | some s => some s.Phase

/-- The read `msg.GetResult().Instance.Status.Phase` of the loop body. -/
def notificationPhase (msg : StreamWorkspaceStatusResponse) : Option WorkspaceInstanceStatus_Phase :=
  match msg.Result with
  | none => none
  | some st =>
    match st.Instance with
    | none => none
    | some inst =>
      match inst.Status with
      | none => none
      | some s => some s.Phase

/-- How one pass through the loop body ends: `continue`/fall through with the
value of `previousStatus`, `break`, or a nil dereference. -/
inductive Flow where
  | next (previousStatus : String)
  | stop
  | nilDereference
  deriving DecidableEq, Repr

/-- The body of `for stream.Receive() { ... }`.  `TranslateWsPhase` is the
helper `common.TranslateWsPhase`, which is not among the sources at hand and is
taken as a parameter. -/
def loopBody (TranslateWsPhase : String → String) (previousStatus : String)
    (msg : Notification) : List Event × Flow :=
  match msg with
  | none => ([Event.Println "No message received"], Flow.next previousStatus)
  | some m =>
    match notificationPhase m with
    | none => ([], Flow.nilDereference)
    | some phase =>
      if phase = PHASE_STOPPED then
        ([Event.Println "Workspace stopped"], Flow.stop)
      else
        let currentStatus := TranslateWsPhase phase.String
        if currentStatus ≠ previousStatus then
          ([Event.Println ("Workspace " ++ currentStatus)], Flow.next currentStatus)
        else
          ([], Flow.next previousStatus)

/-- The statement after the loop: `if err := stream.Err(); err != nil
{ log.Fatalf("Failed to receive: %v", err) }`, else `return nil`. -/
def afterLoop (err : Option String) : Outcome :=
  match err with
  | some e => Outcome.fatal ("Failed to receive: " ++ e)
  | none => Outcome.returned none

/-- The receive loop and the statements after it.  The first argument holds the
messages still to be delivered; when it is empty `Receive()` returns false and
`Err()` reports `err`.  After a `break` the last `Receive()` had succeeded, so
`Err()` is nil. -/
def receiveLoop (TranslateWsPhase : String → String) :
    List Notification → Option String → String → Run
  | [], err, _ => { trace := [Event.Receive], outcome := afterLoop err }
  | msg :: rest, err, previousStatus =>
    match loopBody TranslateWsPhase previousStatus msg with
    | (out, Flow.next previousStatus') =>
      (receiveLoop TranslateWsPhase rest err previousStatus').after (Event.Receive :: out)
    | (out, Flow.stop) =>
      { trace := Event.Receive :: out, outcome := afterLoop none }
    | (out, Flow.nilDereference) =>
      { trace := Event.Receive :: out, outcome := Outcome.nilDereference }

/-- The choice of the workspace id at the head of `RunE`: the selector is
called when `len(args) < 1`, else `args[0]` is taken. -/
def resolveTarget (env : Env) (args : List String) : List Event × String :=
  match args with
  | [] => ([Event.SelectWorkspace], env.SelectWorkspace filter)
  | arg0 :: _ => ([], arg0)

/-- The part of `RunE` after the stop request has answered with `currentPhase`:
the three short-circuit checks, the opening of the stream, the two announcement
lines, `previousStatus := ""` and the receive loop. -/
def afterStopRequest (TranslateWsPhase : String → String) (stopDontWait : Bool) (env : Env)
    (workspaceID : String) (currentPhase : WorkspaceInstanceStatus_Phase) : Run :=
  if currentPhase = PHASE_STOPPED then
    { trace := [Event.Println "Workspace is already stopped"], outcome := Outcome.returned none }
  else if currentPhase = PHASE_STOPPING then
    { trace := [Event.Println "Workspace is already stopping"], outcome := Outcome.returned none }
  else if stopDontWait then
    { trace := [Event.Println "Workspace stopping"], outcome := Outcome.returned none }
  else
    match env.StreamWorkspaceStatus workspaceID with
    | Except.error e =>
      { trace := [Event.StreamWorkspaceStatus workspaceID], outcome := Outcome.returned (some e) }
    | Except.ok stream =>
      (receiveLoop TranslateWsPhase stream.msgs stream.err "").after
        [Event.StreamWorkspaceStatus workspaceID,
         Event.Println "Waiting for workspace to stop...",
         Event.Println ("Workspace " ++ TranslateWsPhase currentPhase.String)]

/-- The function `stopWorkspaceCommand.RunE`.  `stopDontWait` is the package
variable bound to the `--dont-wait` flag. -/
def RunE (TranslateWsPhase : String → String) (stopDontWait : Bool) (env : Env)
    (args : List String) : Run :=
  let target := resolveTarget env args
  let workspaceID := target.2
  Run.after target.1 <|
    match env.GetGitpodClient with
    | some e => { trace := [Event.GetGitpodClient], outcome := Outcome.returned (some e) }
    | none =>
      Run.after [Event.GetGitpodClient, Event.Println "Attempting to stop workspace...",
          Event.StopWorkspace workspaceID] <|
        match env.StopWorkspace workspaceID with
        | Except.error e => { trace := [], outcome := Outcome.returned (some e) }
        | Except.ok wsInfo =>
          match stopResponsePhase wsInfo with
          | none => { trace := [], outcome := Outcome.nilDereference }
          | some currentPhase =>
            afterStopRequest TranslateWsPhase stopDontWait env workspaceID currentPhase

/-- Modelled from the spec: `common.TranslateWsPhase` is not among the sources
at hand; the spec describes it as a fixed table from the phase to its display
label and shows the labels `Running`, `Stopping`, `Stopped` and `Interrupted`.
Used only to instantiate the parameter at concrete inputs. -/
def TranslateWsPhase (phase : String) : String :=
  if phase = "PHASE_UNSPECIFIED" then "Unspecified"
  else if phase = "PHASE_PENDING" then "Pending"
  else if phase = "PHASE_CREATING" then "Creating"
  else if phase = "PHASE_INITIALIZING" then "Initializing"
  else if phase = "PHASE_RUNNING" then "Running"
  else if phase = "PHASE_INTERRUPTED" then "Interrupted"
  else if phase = "PHASE_STOPPING" then "Stopping"
  else if phase = "PHASE_STOPPED" then "Stopped"
  else phase

/-- A well-formed notification carrying `phase`. -/
def notification (phase : WorkspaceInstanceStatus_Phase) : Notification :=
  some { Result := some { Instance := some { Status := some { Phase := phase } } } }

/-- A stop response carrying `phase`. -/
def stopResponse (phase : WorkspaceInstanceStatus_Phase) : StopWorkspaceResponse :=
  { Result := some { Status := some { Instance := some { Status := some { Phase := phase } } } } }

/-- An environment whose client is available, whose stop request reports
`phase` and whose status stream delivers `msgs` and then closes with `err`;
the selector answers `"ws-selected"`. -/
def scenario (phase : WorkspaceInstanceStatus_Phase) (msgs : List Notification)
    (err : Option String) : Env :=
  { SelectWorkspace := fun _ => "ws-selected"
    GetGitpodClient := none
    StopWorkspace := fun _ => Except.ok (stopResponse phase)
    StreamWorkspaceStatus := fun _ => Except.ok { msgs := msgs, err := err } }

/-- The phase the stop request reports to `RunE`, when the client is available,
the request succeeds and the response carries a phase. -/
def reportedPhase (env : Env) (args : List String) : Option WorkspaceInstanceStatus_Phase :=
  match env.GetGitpodClient with
  | some _ => none
  | none =>
    match env.StopWorkspace (resolveTarget env args).2 with
    | Except.error _ => none
    | Except.ok wsInfo => stopResponsePhase wsInfo

/-- The status stream the client hands out for the resolved workspace id, when
opening it succeeds. -/
def streamFor (env : Env) (args : List String) : Option Stream :=
  match env.StreamWorkspaceStatus (resolveTarget env args).2 with
  | Except.error _ => none
  | Except.ok stream => some stream

/-- The phase a delivered message carries, when the message is present and
complete. -/
def carriedPhase (msg : Notification) : Option WorkspaceInstanceStatus_Phase :=
  match msg with
  | none => none
  | some m => notificationPhase m

/-- The message is absent (nil) or carries a phase: the loop body reads it
without dereferencing a nil pointer. -/
def processable (msg : Notification) : Bool :=
  match msg with
  | none => true
  | some m => (notificationPhase m).isSome

/-- The message carries the phase `PHASE_STOPPED`. -/
def isStopped (msg : Notification) : Bool :=
  decide (carriedPhase msg = some PHASE_STOPPED)

/-- Whether a displayed line starts with `Workspace `, as the phase lines
do. -/
def isPhaseLine (line : String) : Bool :=
  "Workspace ".data.isPrefixOf line.data

/-- Number of phase lines among the displayed lines. -/
def phaseLineCount (lines : List String) : Nat :=
  lines.countP isPhaseLine

/-- Number of places in a sequence where an entry differs from the entry
before it. -/
def changes {α : Type} [DecidableEq α] : List α → Nat
  | a :: b :: l => (if a ≠ b then 1 else 0) + changes (b :: l)
  | _ => 0

/-- The count of phase lines as the dedup invariant states it: the initial
phase counts as the first line and every change of phase in the sequence
formed by the initial phase and the notification phases adds one. -/
def statedPhaseLines (initialPhase : WorkspaceInstanceStatus_Phase)
    (phases : List WorkspaceInstanceStatus_Phase) : Nat :=
  1 + changes (initialPhase :: phases)

/-- The notification phases the loop gets to translate: those in front of the
first `PHASE_STOPPED`. -/
def beforeStopped (phases : List WorkspaceInstanceStatus_Phase) :
    List WorkspaceInstanceStatus_Phase :=
  phases.takeWhile fun p => decide (p ≠ PHASE_STOPPED)

/-! ## Auxiliary facts -/

@[simp] theorem after_trace (evs : List Event) (r : Run) :
    (r.after evs).trace = evs ++ r.trace := rfl

@[simp] theorem after_outcome (evs : List Event) (r : Run) :
    (r.after evs).outcome = r.outcome := rfl

theorem displayed_append (xs ys : List Event) :
    displayed (xs ++ ys) = displayed xs ++ displayed ys := by
  induction xs with
  | nil => rfl
  | cons e xs ih => cases e <;> simp [displayed, ih]

theorem displayed_after_receive (out : List Event) (r : Run) :
    displayed (r.after (Event.Receive :: out)).trace = displayed out ++ displayed r.trace := by
  simp [displayed, displayed_append]

theorem callsSelector_append (xs ys : List Event) :
    callsSelector (xs ++ ys) = (callsSelector xs || callsSelector ys) := by
  induction xs with
  | nil => rfl
  | cons e xs ih => cases e <;> simp [callsSelector, ih]

theorem opensStream_append (xs ys : List Event) :
    opensStream (xs ++ ys) = (opensStream xs || opensStream ys) := by
  induction xs with
  | nil => rfl
  | cons e xs ih => cases e <;> simp [opensStream, ih]

/-- The run of `RunE` once the stop request has reported `phase`. -/
theorem RunE_of_reportedPhase (tr : String → String) (dontWait : Bool) (env : Env)
    (args : List String) (phase : WorkspaceInstanceStatus_Phase)
    (h : reportedPhase env args = some phase) :
    RunE tr dontWait env args =
      (afterStopRequest tr dontWait env (resolveTarget env args).2 phase).after
        ((resolveTarget env args).1 ++
          [Event.GetGitpodClient, Event.Println "Attempting to stop workspace...",
            Event.StopWorkspace (resolveTarget env args).2]) := by
  unfold reportedPhase at h
  unfold RunE
  cases hc : env.GetGitpodClient with
  | some e => simp [hc] at h
  | none =>
    simp only [hc] at h
    cases hs : env.StopWorkspace (resolveTarget env args).2 with
    | error e => simp [hs] at h
    | ok wsInfo =>
      simp only [hs] at h
      simp [hs, h, Run.after]

/-- The run of `RunE` once the receive loop is entered. -/
theorem RunE_of_stream (tr : String → String) (env : Env) (args : List String)
    (phase : WorkspaceInstanceStatus_Phase) (stream : Stream)
    (h : reportedPhase env args = some phase)
    (h1 : phase ≠ PHASE_STOPPED) (h2 : phase ≠ PHASE_STOPPING)
    (hs : streamFor env args = some stream) :
    RunE tr false env args =
      (receiveLoop tr stream.msgs stream.err "").after
        ((resolveTarget env args).1 ++
          [Event.GetGitpodClient, Event.Println "Attempting to stop workspace...",
            Event.StopWorkspace (resolveTarget env args).2,
            Event.StreamWorkspaceStatus (resolveTarget env args).2,
            Event.Println "Waiting for workspace to stop...",
            Event.Println ("Workspace " ++ tr phase.String)]) := by
  rw [RunE_of_reportedPhase tr false env args phase h]
  unfold streamFor at hs
  unfold afterStopRequest
  cases ho : env.StreamWorkspaceStatus (resolveTarget env args).2 with
  | error e => simp [ho] at hs
  | ok st =>
    simp only [ho, Option.some.injEq] at hs
    subst hs
    simp [h1, h2, Run.after]

theorem displayed_resolveTarget (env : Env) (args : List String) :
    displayed (resolveTarget env args).1 = [] := by
  cases args <;> rfl

theorem opensStream_resolveTarget (env : Env) (args : List String) :
    opensStream (resolveTarget env args).1 = false := by
  cases args <;> rfl

theorem requestIds_append (xs ys : List Event) :
    requestIds (xs ++ ys) = requestIds xs ++ requestIds ys := by
  induction xs with
  | nil => rfl
  | cons e xs ih => cases e <;> simp [requestIds, ih]

theorem loopBody_quiet (tr : String → String) (prev : String) (msg : Notification) :
    callsSelector (loopBody tr prev msg).1 = false ∧ requestIds (loopBody tr prev msg).1 = [] := by
  unfold loopBody
  cases msg with
  | none => simp [callsSelector, requestIds]
  | some m =>
    cases hn : notificationPhase m with
    | none => simp [hn, callsSelector, requestIds]
    | some phase =>
      by_cases h1 : phase = PHASE_STOPPED
      · simp [hn, h1, callsSelector, requestIds]
      · by_cases h2 : tr phase.String = prev <;> simp [hn, h1, h2, callsSelector, requestIds]

theorem receiveLoop_quiet (tr : String → String) (msgs : List Notification)
    (err : Option String) (prev : String) :
    callsSelector (receiveLoop tr msgs err prev).trace = false ∧
      requestIds (receiveLoop tr msgs err prev).trace = [] := by
  induction msgs generalizing prev with
  | nil => simp [receiveLoop, callsSelector, requestIds]
  | cons msg rest ih =>
    have hb := loopBody_quiet tr prev msg
    unfold receiveLoop
    split
    next out prev' hbody =>
      rw [hbody] at hb
      have := ih prev'
      simp_all [callsSelector_append, requestIds_append, callsSelector, requestIds]
    next out hbody =>
      rw [hbody] at hb
      simp_all [callsSelector, requestIds]
    next out hbody =>
      rw [hbody] at hb
      simp_all [callsSelector, requestIds]

/-- Every run starts with the actions of the target resolution; what follows
never calls the selector and sends its requests for the resolved id only. -/
theorem RunE_trace_shape (tr : String → String) (dontWait : Bool) (env : Env)
    (args : List String) :
    ∃ tail, (RunE tr dontWait env args).trace = (resolveTarget env args).1 ++ tail ∧
      callsSelector tail = false ∧
      (∀ id ∈ requestIds tail, id = (resolveTarget env args).2) ∧
      (env.GetGitpodClient = none → (resolveTarget env args).2 ∈ requestIds tail) := by
  unfold RunE
  simp only [after_trace]
  refine ⟨_, rfl, ?_⟩
  cases hc : env.GetGitpodClient with
  | some e => simp [hc, callsSelector, requestIds]
  | none =>
    cases hs : env.StopWorkspace (resolveTarget env args).2 with
    | error e => simp [hc, hs, callsSelector, requestIds]
    | ok wsInfo =>
      cases hp : stopResponsePhase wsInfo with
      | none => simp [hc, hs, hp, callsSelector, requestIds]
      | some phase =>
        simp only [after_trace]
        unfold afterStopRequest
        by_cases h1 : phase = PHASE_STOPPED
        · simp [hc, hs, hp, h1, callsSelector, requestIds]
        · by_cases h2 : phase = PHASE_STOPPING
          · simp [hc, hs, hp, h2, callsSelector, requestIds]
          · cases dontWait with
            | true => simp [hc, hs, hp, h1, h2, callsSelector, requestIds]
            | false =>
              cases ho : env.StreamWorkspaceStatus (resolveTarget env args).2 with
              | error e => simp [hc, hs, hp, ho, h1, h2, callsSelector, requestIds]
              | ok stream =>
                have hq := receiveLoop_quiet tr stream.msgs stream.err ""
                simp [hc, hs, hp, ho, h1, h2, callsSelector_append, requestIds_append,
                  callsSelector, requestIds, hq]

/-- Lines that start with the same text agree only if they continue with the
same text. -/
theorem line_cancel (pre a b : String) (h : pre ++ a = pre ++ b) : a = b := by
  have hd := congrArg String.data h
  simp only [String.data_append] at hd
  exact String.ext (List.append_cancel_left hd)

theorem isPhaseLine_workspace (label : String) : isPhaseLine ("Workspace " ++ label) = true := by
  unfold isPhaseLine
  rw [String.data_append, List.isPrefixOf_iff_prefix]
  exact List.prefix_append _ _

theorem loopBody_absent (tr : String → String) (prev : String) :
    loopBody tr prev none = ([Event.Println "No message received"], Flow.next prev) := rfl

theorem loopBody_stopped (tr : String → String) (prev : String) (msg : Notification)
    (h : isStopped msg = true) :
    loopBody tr prev msg = ([Event.Println "Workspace stopped"], Flow.stop) := by
  cases msg with
  | none => simp [isStopped, carriedPhase] at h
  | some m =>
    have hm : notificationPhase m = some PHASE_STOPPED := by
      simpa [isStopped, carriedPhase] using h
    simp [loopBody, hm]

theorem loopBody_phase (tr : String → String) (prev : String) (msg : Notification)
    (phase : WorkspaceInstanceStatus_Phase) (h : carriedPhase msg = some phase)
    (hp : phase ≠ PHASE_STOPPED) :
    loopBody tr prev msg =
      (if tr phase.String ≠ prev then [Event.Println ("Workspace " ++ tr phase.String)] else [],
        Flow.next (tr phase.String)) := by
  cases msg with
  | none => simp [carriedPhase] at h
  | some m =>
    have hm : notificationPhase m = some phase := by simpa [carriedPhase] using h
    by_cases hl : tr phase.String = prev
    · simp [loopBody, hm, hp, hl]
    · simp [loopBody, hm, hp, hl]

theorem carriedPhase_notification (phase : WorkspaceInstanceStatus_Phase) :
    carriedPhase (notification phase) = some phase := rfl

/-- A message the body can read and that is not `PHASE_STOPPED` lets the loop
go on. -/
theorem loopBody_continues (tr : String → String) (prev : String) (msg : Notification)
    (h : processable msg = true ∧ isStopped msg = false) :
    ∃ out prev', loopBody tr prev msg = (out, Flow.next prev') ∧
      (∀ line ∈ displayed out, line = "No message received" ∨
        ∃ phase, phase ≠ PHASE_STOPPED ∧ line = "Workspace " ++ tr phase.String) := by
  cases msg with
  | none => exact ⟨_, _, rfl, by simp [displayed]⟩
  | some m =>
    cases hm : notificationPhase m with
    | none => simp [processable, hm] at h
    | some phase =>
      have hp : phase ≠ PHASE_STOPPED := by
        intro hp
        simp [isStopped, carriedPhase, hm, hp] at h
      refine ⟨_, _, loopBody_phase tr prev (some m) phase hm hp, ?_⟩
      by_cases hl : tr phase.String = prev
      · simp [hl, displayed]
      · simp only [ne_eq, hl, not_false_eq_true, if_true, displayed, List.mem_singleton]
        intro line hline
        exact Or.inr ⟨phase, hp, hline⟩

theorem receiveLoop_cons_next (tr : String → String) (msg : Notification)
    (rest : List Notification) (err : Option String) (prev prev' : String) (out : List Event)
    (h : loopBody tr prev msg = (out, Flow.next prev')) :
    receiveLoop tr (msg :: rest) err prev =
      (receiveLoop tr rest err prev').after (Event.Receive :: out) := by
  simp [receiveLoop, h]

theorem receiveLoop_cons_stopped (tr : String → String) (msg : Notification)
    (rest : List Notification) (err : Option String) (prev : String)
    (h : isStopped msg = true) :
    receiveLoop tr (msg :: rest) err prev =
      { trace := [Event.Receive, Event.Println "Workspace stopped"],
        outcome := Outcome.returned none } := by
  simp [receiveLoop, loopBody_stopped tr prev msg h, afterLoop]

/-- When every message can be read and none is `PHASE_STOPPED`, the loop reads
them all and ends on the statement after the loop; the terminal error has no
part in what is displayed. -/
theorem receiveLoop_exhausts (tr : String → String) (msgs : List Notification)
    (err : Option String) (prev : String)
    (h : ∀ m ∈ msgs, processable m = true ∧ isStopped m = false) :
    receiveLoop tr msgs err prev =
      { trace := (receiveLoop tr msgs none prev).trace, outcome := afterLoop err } ∧
      receiveCount (receiveLoop tr msgs err prev).trace = msgs.length + 1 ∧
      (∀ line ∈ displayed (receiveLoop tr msgs err prev).trace, line = "No message received" ∨
        ∃ phase, phase ≠ PHASE_STOPPED ∧ line = "Workspace " ++ tr phase.String) := by
  induction msgs generalizing prev with
  | nil => simp [receiveLoop, receiveCount, displayed]
  | cons msg rest ih =>
    obtain ⟨out, prev', hbody, hout⟩ :=
      loopBody_continues tr prev msg (h msg (List.mem_cons_self _ _))
    obtain ⟨ih1, ih2, ih3⟩ := ih prev' fun m hm => h m (List.mem_cons_of_mem _ hm)
    have hcount : List.count Event.Receive out = 0 := by
      rw [List.count_eq_zero]
      intro hmem
      unfold loopBody at hbody
      cases msg with
      | none =>
        simp only [Prod.mk.injEq] at hbody
        rw [← hbody.1] at hmem
        simp at hmem
      | some m =>
        cases hm : notificationPhase m with
        | none => simp [hm] at hbody
        | some phase =>
          simp only [hm] at hbody
          split at hbody
          · simp at hbody
          · split at hbody
            · simp only [Prod.mk.injEq] at hbody
              rw [← hbody.1] at hmem
              simp at hmem
            · simp only [Prod.mk.injEq] at hbody
              rw [← hbody.1] at hmem
              simp at hmem
    rw [receiveLoop_cons_next tr msg rest err prev prev' out hbody,
      receiveLoop_cons_next tr msg rest none prev prev' out hbody]
    refine ⟨?_, ?_, ?_⟩
    · rw [ih1]
      simp [Run.after]
    · simp only [receiveCount] at ih2 ⊢
      simp [List.count_cons, List.count_append, ih2, hcount]
    · intro line hline
      have hd : displayed ((receiveLoop tr rest err prev').after (Event.Receive :: out)).trace =
          displayed out ++ displayed (receiveLoop tr rest err prev').trace := by
        simp [displayed, displayed_append]
      rw [hd] at hline
      rcases List.mem_append.1 hline with hl | hl
      · exact hout line hl
      · exact ih3 line hl

/-- A message whose result, instance or status is missing ends the loop in a
nil dereference, whatever follows it. -/
theorem incomplete_message_crashes (tr : String → String)
    (m : StreamWorkspaceStatusResponse) (later : List Notification) (err : Option String)
    (previousStatus : String) (h : notificationPhase m = none) :
    receiveLoop tr (some m :: later) err previousStatus =
      { trace := [Event.Receive], outcome := Outcome.nilDereference } := by
  simp [receiveLoop, loopBody, h]

/-- The run does not depend on what follows a `PHASE_STOPPED` notification,
nor on the terminal error of the stream. -/
theorem receiveLoop_cut (tr : String → String) (front : List Notification)
    (stopped : Notification) (later : List Notification) (err : Option String)
    (prev : String) (h : isStopped stopped = true) :
    receiveLoop tr (front ++ stopped :: later) err prev =
      receiveLoop tr (front ++ [stopped]) none prev := by
  induction front generalizing prev with
  | nil =>
    simp only [List.nil_append]
    rw [receiveLoop_cons_stopped tr stopped later err prev h,
      receiveLoop_cons_stopped tr stopped [] none prev h]
  | cons msg rest ih =>
    rcases hb : loopBody tr prev msg with ⟨out, flow⟩
    cases flow with
    | next prev' => simp [receiveLoop, hb, ih prev']
    | stop => simp [receiveLoop, hb]
    | nilDereference => simp [receiveLoop, hb]

/-- Without a `PHASE_STOPPED` notification the loop ends on the statement after
the loop or in a nil dereference, and every line it displays is the notice of
an absent message or the line of a phase other than `PHASE_STOPPED`. -/
theorem receiveLoop_unstopped (tr : String → String) (msgs : List Notification)
    (err : Option String) (prev : String) (h : ∀ m ∈ msgs, isStopped m = false) :
    ((receiveLoop tr msgs err prev).outcome = afterLoop err ∨
        (receiveLoop tr msgs err prev).outcome = Outcome.nilDereference) ∧
      (∀ line ∈ displayed (receiveLoop tr msgs err prev).trace, line = "No message received" ∨
        ∃ phase, phase ≠ PHASE_STOPPED ∧ line = "Workspace " ++ tr phase.String) := by
  induction msgs generalizing prev with
  | nil => simp [receiveLoop, displayed]
  | cons msg rest ih =>
    by_cases hproc : processable msg = true
    · obtain ⟨out, prev', hbody, hout⟩ :=
        loopBody_continues tr prev msg ⟨hproc, h msg (List.mem_cons_self _ _)⟩
      obtain ⟨ih1, ih2⟩ := ih prev' fun m hm => h m (List.mem_cons_of_mem _ hm)
      rw [receiveLoop_cons_next tr msg rest err prev prev' out hbody]
      refine ⟨by simpa using ih1, ?_⟩
      intro line hline
      rw [displayed_after_receive] at hline
      rcases List.mem_append.1 hline with hl | hl
      · exact hout line hl
      · exact ih2 line hl
    · cases msg with
      | none => simp [processable] at hproc
      | some m =>
        have hm : notificationPhase m = none := by
          simpa [processable] using hproc
        rw [incomplete_message_crashes tr m rest err prev hm]
        simp [displayed]

/-! ## Short-circuit checks -/

/-- C3 (idempotent short-circuit).  Whenever the stop request reports the
phase `PHASE_STOPPED` or `PHASE_STOPPING`, then for either value of the
do-not-wait flag the command returns nil, no status stream is opened, and
after the announcement line the one line displayed is `Workspace is already
stopped` for `PHASE_STOPPED` and `Workspace is already stopping` for
`PHASE_STOPPING`. -/
theorem idempotent_short_circuit (tr : String → String) (dontWait : Bool) (env : Env)
    (args : List String) (phase : WorkspaceInstanceStatus_Phase)
    (h : reportedPhase env args = some phase)
    (hp : phase = PHASE_STOPPED ∨ phase = PHASE_STOPPING) :
    (RunE tr dontWait env args).outcome = Outcome.returned none ∧
      opensStream (RunE tr dontWait env args).trace = false ∧
      displayed (RunE tr dontWait env args).trace =
        ["Attempting to stop workspace...",
          if phase = PHASE_STOPPED then "Workspace is already stopped"
          else "Workspace is already stopping"] := by
  rw [RunE_of_reportedPhase tr dontWait env args phase h]
  rcases hp with hp | hp <;> subst hp <;>
    simp [afterStopRequest, displayed_append, opensStream_append, displayed_resolveTarget,
      opensStream_resolveTarget, displayed, opensStream]

/-- The short-circuit at a concrete run: the stop request reports
`PHASE_STOPPING` while the do-not-wait flag is set. -/
theorem idempotent_short_circuit_witness :
    reportedPhase (scenario PHASE_STOPPING [] none) ["ws-1"] = some PHASE_STOPPING ∧
      (RunE TranslateWsPhase true (scenario PHASE_STOPPING [] none) ["ws-1"]).outcome =
        Outcome.returned none ∧
      opensStream (RunE TranslateWsPhase true (scenario PHASE_STOPPING [] none) ["ws-1"]).trace =
        false ∧
      displayed (RunE TranslateWsPhase true (scenario PHASE_STOPPING [] none) ["ws-1"]).trace =
        ["Attempting to stop workspace...",
          if PHASE_STOPPING = PHASE_STOPPED then "Workspace is already stopped"
          else "Workspace is already stopping"] :=
  ⟨by decide,
    idempotent_short_circuit TranslateWsPhase true (scenario PHASE_STOPPING [] none) ["ws-1"]
      PHASE_STOPPING (by decide) (Or.inr rfl)⟩

/-- C4 as stated fails: `PHASE_STOPPING` is not the terminal phase, yet with
the do-not-wait flag set and `PHASE_STOPPING` reported the command displays
`Workspace is already stopping`, and never `Workspace stopping`. -/
theorem fire_and_forget_stopping_counterexample :
    PHASE_STOPPING ≠ PHASE_STOPPED ∧
      reportedPhase (scenario PHASE_STOPPING [] none) ["ws-1"] = some PHASE_STOPPING ∧
      displayed (RunE TranslateWsPhase true (scenario PHASE_STOPPING [] none) ["ws-1"]).trace =
        ["Attempting to stop workspace...", "Workspace is already stopping"] ∧
      "Workspace stopping" ∉
        displayed (RunE TranslateWsPhase true (scenario PHASE_STOPPING [] none) ["ws-1"]).trace := by
  decide

/-- C4, amended (fire-and-forget bypass).  Whenever the do-not-wait flag is set
and the stop request reports a phase that is neither `PHASE_STOPPED` nor
`PHASE_STOPPING`, the command returns nil, no status stream is opened and no
message is received, and after the announcement line the one line displayed is
`Workspace stopping`: no phase label is displayed. -/
theorem fire_and_forget_bypass (tr : String → String) (env : Env) (args : List String)
    (phase : WorkspaceInstanceStatus_Phase)
    (h : reportedPhase env args = some phase)
    (h1 : phase ≠ PHASE_STOPPED) (h2 : phase ≠ PHASE_STOPPING) :
    (RunE tr true env args).outcome = Outcome.returned none ∧
      opensStream (RunE tr true env args).trace = false ∧
      receiveCount (RunE tr true env args).trace = 0 ∧
      displayed (RunE tr true env args).trace =
        ["Attempting to stop workspace...", "Workspace stopping"] := by
  rw [RunE_of_reportedPhase tr true env args phase h]
  have hr : receiveCount (resolveTarget env args).1 = 0 := by
    cases args <;> simp [resolveTarget, receiveCount]
  simp only [receiveCount] at hr
  simp [afterStopRequest, h1, h2, displayed_append, opensStream_append, displayed_resolveTarget,
    opensStream_resolveTarget, displayed, opensStream, receiveCount, hr]

/-- The bypass at a concrete run: the stop request reports `PHASE_RUNNING`. -/
theorem fire_and_forget_bypass_witness :
    (reportedPhase (scenario PHASE_RUNNING [notification PHASE_STOPPED] none) [] =
        some PHASE_RUNNING ∧ PHASE_RUNNING ≠ PHASE_STOPPED ∧ PHASE_RUNNING ≠ PHASE_STOPPING) ∧
      (RunE TranslateWsPhase true
          (scenario PHASE_RUNNING [notification PHASE_STOPPED] none) []).outcome =
        Outcome.returned none ∧
      opensStream (RunE TranslateWsPhase true
          (scenario PHASE_RUNNING [notification PHASE_STOPPED] none) []).trace = false ∧
      receiveCount (RunE TranslateWsPhase true
          (scenario PHASE_RUNNING [notification PHASE_STOPPED] none) []).trace = 0 ∧
      displayed (RunE TranslateWsPhase true
          (scenario PHASE_RUNNING [notification PHASE_STOPPED] none) []).trace =
        ["Attempting to stop workspace...", "Workspace stopping"] :=
  ⟨by decide,
    fire_and_forget_bypass TranslateWsPhase
      (scenario PHASE_RUNNING [notification PHASE_STOPPED] none) [] PHASE_RUNNING
      (by decide) (by decide) (by decide)⟩

/-! ## Target resolution -/

/-- C7 as stated fails: with the empty string as explicit id the selector is
not called, although it would have answered `ws-selected`, and both requests
are sent for the empty id. -/
theorem target_resolution_empty_id_counterexample :
    callsSelector (RunE TranslateWsPhase false
        (scenario PHASE_RUNNING [notification PHASE_STOPPED] none) [""]).trace = false ∧
      requestIds (RunE TranslateWsPhase false
        (scenario PHASE_RUNNING [notification PHASE_STOPPED] none) [""]).trace = ["", ""] ∧
      (scenario PHASE_RUNNING [notification PHASE_STOPPED] none).SelectWorkspace filter =
        "ws-selected" := by
  decide

/-- C7, amended (target resolution).  For every argument list: if an argument
is present, empty or not, the selector is never called and every request of the
command (the stop request, sent whenever the client is available, and the
opening of the status stream) carries exactly that argument; if no argument is
present the selector is called first and every request carries the id it
returns.  The filter handed to the selector accepts a workspace that carries an
instance phase if and only if that phase is not `PHASE_STOPPED`. -/
theorem target_resolution (tr : String → String) (dontWait : Bool) (env : Env)
    (args : List String) :
    (∀ id rest, args = id :: rest →
        callsSelector (RunE tr dontWait env args).trace = false ∧
        (∀ id' ∈ requestIds (RunE tr dontWait env args).trace, id' = id) ∧
        (env.GetGitpodClient = none → id ∈ requestIds (RunE tr dontWait env args).trace)) ∧
      (args = [] →
        (RunE tr dontWait env args).trace.head? = some Event.SelectWorkspace ∧
        (∀ id' ∈ requestIds (RunE tr dontWait env args).trace,
          id' = env.SelectWorkspace filter) ∧
        (env.GetGitpodClient = none →
          env.SelectWorkspace filter ∈ requestIds (RunE tr dontWait env args).trace)) ∧
      (∀ phase : WorkspaceInstanceStatus_Phase,
        (filter { Status := some { Instance := some { Status := some { Phase := phase } } } } =
            some true ↔ phase ≠ PHASE_STOPPED) ∧
        (filter { Status := some { Instance := some { Status := some { Phase := phase } } } } =
            some false ↔ phase = PHASE_STOPPED)) := by
  obtain ⟨tail, ht, hsel, hids, hreq⟩ := RunE_trace_shape tr dontWait env args
  refine ⟨?_, ?_, ?_⟩
  · intro id rest hargs
    subst hargs
    simp only [resolveTarget, List.nil_append] at ht hids hreq
    rw [ht]
    exact ⟨hsel, hids, hreq⟩
  · intro hargs
    subst hargs
    simp only [resolveTarget, List.singleton_append] at ht hids hreq
    rw [ht]
    refine ⟨rfl, ?_, ?_⟩
    · intro id' hid'
      exact hids id' (by simpa [requestIds] using hid')
    · intro hc
      simpa [requestIds] using hreq hc
  · intro phase
    simp [filter]

/-- The resolution at a concrete run with the explicit id `ws-1`. -/
theorem target_resolution_witness :
    callsSelector (RunE TranslateWsPhase false
        (scenario PHASE_RUNNING [notification PHASE_STOPPED] none) ["ws-1"]).trace = false ∧
      (∀ id' ∈ requestIds (RunE TranslateWsPhase false
        (scenario PHASE_RUNNING [notification PHASE_STOPPED] none) ["ws-1"]).trace,
          id' = "ws-1") ∧
      ((scenario PHASE_RUNNING [notification PHASE_STOPPED] none).GetGitpodClient = none →
        "ws-1" ∈ requestIds (RunE TranslateWsPhase false
          (scenario PHASE_RUNNING [notification PHASE_STOPPED] none) ["ws-1"]).trace) :=
  (target_resolution TranslateWsPhase false
    (scenario PHASE_RUNNING [notification PHASE_STOPPED] none) ["ws-1"]).1 "ws-1" [] rfl

/-! ## The receive loop -/

/-- C2 (terminal cutoff).  Take a `PHASE_STOPPED` notification in a
notification sequence.  Whatever stands in front of it, whatever follows it,
whatever terminal error the stream holds and whatever the last-displayed label
at the start, the whole run of the loop, trace and result, equals the run on
the sequence cut after that notification: nothing later is received, inspected
or displayed.  When the notifications in front are ones the loop body can read
and none of them is `PHASE_STOPPED`, the loop returns nil, displays the lines
of the notifications in front and then `Workspace stopped`, and calls
`Receive()` once per notification up to the `PHASE_STOPPED` one and never
again. -/
theorem terminal_cutoff (tr : String → String) (stopped : Notification)
    (hstopped : isStopped stopped = true) :
    (∀ (front later : List Notification) (err : Option String) (previousStatus : String),
        receiveLoop tr (front ++ stopped :: later) err previousStatus =
          receiveLoop tr (front ++ [stopped]) none previousStatus) ∧
      (∀ front : List Notification,
        (∀ m ∈ front, processable m = true ∧ isStopped m = false) →
        ∀ (later : List Notification) (err : Option String) (previousStatus : String),
          (receiveLoop tr (front ++ stopped :: later) err previousStatus).outcome =
              Outcome.returned none ∧
            displayed (receiveLoop tr (front ++ stopped :: later) err previousStatus).trace =
              displayed (receiveLoop tr front none previousStatus).trace ++
                ["Workspace stopped"] ∧
            receiveCount (receiveLoop tr (front ++ stopped :: later) err previousStatus).trace =
              front.length + 1) := by
  refine ⟨fun front later err prev => receiveLoop_cut tr front stopped later err prev hstopped,
    ?_⟩
  intro front hfront later err previousStatus
  induction front generalizing previousStatus with
  | nil =>
    simp only [List.nil_append]
    rw [receiveLoop_cons_stopped tr stopped later err previousStatus hstopped]
    simp [receiveLoop, displayed, receiveCount]
  | cons msg rest ih =>
    obtain ⟨out, prev', hbody, -⟩ :=
      loopBody_continues tr previousStatus msg (hfront msg (List.mem_cons_self _ _))
    obtain ⟨ih1, ih2, ih3⟩ := ih (fun m hm => hfront m (List.mem_cons_of_mem _ hm)) prev'
    have hex := (receiveLoop_exhausts tr (msg :: rest) none previousStatus hfront).2.1
    have hlen := (receiveLoop_exhausts tr rest none prev'
      fun m hm => hfront m (List.mem_cons_of_mem _ hm)).2.1
    rw [receiveLoop_cons_next tr msg rest none previousStatus prev' out hbody] at hex
    simp only [receiveCount, after_trace, List.cons_append, List.count_cons_self,
      List.count_append, List.length_cons] at hex hlen
    have hcount : List.count Event.Receive out = 0 := by omega
    simp only [List.cons_append]
    rw [receiveLoop_cons_next tr msg (rest ++ stopped :: later) err previousStatus prev' out hbody,
      receiveLoop_cons_next tr msg rest none previousStatus prev' out hbody]
    refine ⟨by simpa using ih1, ?_, ?_⟩
    · rw [displayed_after_receive, displayed_after_receive, ih2, List.append_assoc]
    · simp only [receiveCount] at ih3
      simp only [receiveCount, after_trace, List.cons_append, List.count_cons_self,
        List.count_append, List.length_cons, ih3, hcount]
      omega

/-- The cutoff at a concrete stream: a notification and an absent message, the
`PHASE_STOPPED` notification, then a notification and a terminal error that are
never reached. -/
theorem terminal_cutoff_witness :
    (isStopped (notification PHASE_STOPPED) = true ∧
      (∀ m ∈ [notification PHASE_RUNNING, none],
        processable m = true ∧ isStopped m = false)) ∧
    receiveLoop TranslateWsPhase
        ([notification PHASE_RUNNING, none] ++
          notification PHASE_STOPPED :: [notification PHASE_RUNNING])
        (some "connection reset") "Running" =
      receiveLoop TranslateWsPhase
        ([notification PHASE_RUNNING, none] ++ [notification PHASE_STOPPED]) none "Running" ∧
    ((receiveLoop TranslateWsPhase
          ([notification PHASE_RUNNING, none] ++
            notification PHASE_STOPPED :: [notification PHASE_RUNNING])
          (some "connection reset") "Running").outcome = Outcome.returned none ∧
      displayed (receiveLoop TranslateWsPhase
          ([notification PHASE_RUNNING, none] ++
            notification PHASE_STOPPED :: [notification PHASE_RUNNING])
          (some "connection reset") "Running").trace =
        displayed (receiveLoop TranslateWsPhase [notification PHASE_RUNNING, none] none
          "Running").trace ++ ["Workspace stopped"] ∧
      receiveCount (receiveLoop TranslateWsPhase
          ([notification PHASE_RUNNING, none] ++
            notification PHASE_STOPPED :: [notification PHASE_RUNNING])
          (some "connection reset") "Running").trace =
        [notification PHASE_RUNNING, none].length + 1) :=
  ⟨by decide,
    (terminal_cutoff TranslateWsPhase (notification PHASE_STOPPED) (by decide)).1
      [notification PHASE_RUNNING, none] [notification PHASE_RUNNING]
      (some "connection reset") "Running",
    (terminal_cutoff TranslateWsPhase (notification PHASE_STOPPED) (by decide)).2
      [notification PHASE_RUNNING, none] (by decide)
      [notification PHASE_RUNNING] (some "connection reset") "Running"⟩

/-- Stream failure on a stream without a `PHASE_STOPPED` notification, the part
of the stream-failure rule the code implements.  Let the receive loop be entered
(do-not-wait off, reported phase neither `PHASE_STOPPED` nor `PHASE_STOPPING`,
stream opened) on a stream that holds no `PHASE_STOPPED` notification and ends
with the terminal error `e`.  Then the command never returns nil.  When the
loop body can read every notification, the command ends in `log.Fatalf` with
the message `Failed to receive: ` followed by `e`, after it has received every
notification and displayed exactly the lines it displays for these
notifications when the stream closes cleanly. -/
theorem stream_failure_is_fatal (tr : String → String) (env : Env) (args : List String)
    (phase : WorkspaceInstanceStatus_Phase) (msgs : List Notification) (e : String)
    (hphase : reportedPhase env args = some phase)
    (h1 : phase ≠ PHASE_STOPPED) (h2 : phase ≠ PHASE_STOPPING)
    (hstream : streamFor env args = some { msgs := msgs, err := some e })
    (hmsgs : ∀ m ∈ msgs, isStopped m = false) :
    (RunE tr false env args).outcome ≠ Outcome.returned none ∧
      ((∀ m ∈ msgs, processable m = true) →
        (RunE tr false env args).outcome = Outcome.fatal ("Failed to receive: " ++ e) ∧
        receiveCount (RunE tr false env args).trace = msgs.length + 1 ∧
        displayed (RunE tr false env args).trace =
          ["Attempting to stop workspace...", "Waiting for workspace to stop...",
            "Workspace " ++ tr phase.String] ++
            displayed (receiveLoop tr msgs none "").trace) := by
  rw [RunE_of_stream tr env args phase _ hphase h1 h2 hstream]
  refine ⟨?_, ?_⟩
  · rw [after_outcome]
    rcases (receiveLoop_unstopped tr msgs (some e) "" hmsgs).1 with h | h <;> rw [h] <;>
      simp [afterLoop]
  · intro hproc
    obtain ⟨hrun, hcount, -⟩ :=
      receiveLoop_exhausts tr msgs (some e) "" fun m hm => ⟨hproc m hm, hmsgs m hm⟩
    have hr : receiveCount (resolveTarget env args).1 = 0 := by
      cases args <;> simp [resolveTarget, receiveCount]
    simp only [receiveCount] at hr hcount
    refine ⟨?_, ?_, ?_⟩
    · rw [after_outcome, hrun]
      rfl
    · simp [receiveCount, List.count_append, hr, hcount, List.count_cons]
    · rw [after_trace, displayed_append, displayed_append, displayed_resolveTarget, hrun]
      simp [displayed]

/-- The failure at the concrete run of the scenario: `PHASE_RUNNING` reported,
one `PHASE_INTERRUPTED` notification, then the error `connection reset`. -/
theorem stream_failure_is_fatal_witness :
    (reportedPhase (scenario PHASE_RUNNING [notification PHASE_INTERRUPTED]
          (some "connection reset")) ["ws-1"] = some PHASE_RUNNING ∧
      streamFor (scenario PHASE_RUNNING [notification PHASE_INTERRUPTED]
          (some "connection reset")) ["ws-1"] =
        some { msgs := [notification PHASE_INTERRUPTED], err := some "connection reset" } ∧
      displayed (RunE TranslateWsPhase false (scenario PHASE_RUNNING
          [notification PHASE_INTERRUPTED] (some "connection reset")) ["ws-1"]).trace =
        ["Attempting to stop workspace...", "Waiting for workspace to stop...",
          "Workspace Running", "Workspace Interrupted"]) ∧
    (RunE TranslateWsPhase false (scenario PHASE_RUNNING [notification PHASE_INTERRUPTED]
        (some "connection reset")) ["ws-1"]).outcome ≠ Outcome.returned none ∧
    ((RunE TranslateWsPhase false (scenario PHASE_RUNNING [notification PHASE_INTERRUPTED]
          (some "connection reset")) ["ws-1"]).outcome =
        Outcome.fatal ("Failed to receive: " ++ "connection reset") ∧
      receiveCount (RunE TranslateWsPhase false (scenario PHASE_RUNNING
          [notification PHASE_INTERRUPTED] (some "connection reset")) ["ws-1"]).trace =
        [notification PHASE_INTERRUPTED].length + 1 ∧
      displayed (RunE TranslateWsPhase false (scenario PHASE_RUNNING
          [notification PHASE_INTERRUPTED] (some "connection reset")) ["ws-1"]).trace =
        ["Attempting to stop workspace...", "Waiting for workspace to stop...",
          "Workspace " ++ TranslateWsPhase PHASE_RUNNING.String] ++
          displayed (receiveLoop TranslateWsPhase [notification PHASE_INTERRUPTED] none
            "").trace) :=
  ⟨by decide,
    (stream_failure_is_fatal TranslateWsPhase
      (scenario PHASE_RUNNING [notification PHASE_INTERRUPTED] (some "connection reset"))
      ["ws-1"] PHASE_RUNNING [notification PHASE_INTERRUPTED] "connection reset"
      (by decide) (by decide) (by decide) (by decide) (by decide)).1,
    (stream_failure_is_fatal TranslateWsPhase
      (scenario PHASE_RUNNING [notification PHASE_INTERRUPTED] (some "connection reset"))
      ["ws-1"] PHASE_RUNNING [notification PHASE_INTERRUPTED] "connection reset"
      (by decide) (by decide) (by decide) (by decide) (by decide)).2 (by decide)⟩

/-- Clean close on a stream without a `PHASE_STOPPED` notification, the part of
the clean-close rule the code implements.  Let the receive loop be entered on a
stream that holds no `PHASE_STOPPED` notification (possibly no notification at
all) and closes without error.  Provided the label of no phase other than
`PHASE_STOPPED` is `stopped`, the line `Workspace stopped` is never displayed;
and when the loop body can read every notification, the command returns
nil. -/
theorem clean_close_without_confirmation (tr : String → String) (env : Env)
    (args : List String) (phase : WorkspaceInstanceStatus_Phase) (msgs : List Notification)
    (hphase : reportedPhase env args = some phase)
    (h1 : phase ≠ PHASE_STOPPED) (h2 : phase ≠ PHASE_STOPPING)
    (hstream : streamFor env args = some { msgs := msgs, err := none })
    (hmsgs : ∀ m ∈ msgs, isStopped m = false)
    (hlabel : ∀ p : WorkspaceInstanceStatus_Phase, p ≠ PHASE_STOPPED → tr p.String ≠ "stopped") :
    "Workspace stopped" ∉ displayed (RunE tr false env args).trace ∧
      ((∀ m ∈ msgs, processable m = true) →
        (RunE tr false env args).outcome = Outcome.returned none) := by
  rw [RunE_of_stream tr env args phase _ hphase h1 h2 hstream]
  have hlines := (receiveLoop_unstopped tr msgs none "" hmsgs).2
  have hne : ∀ p : WorkspaceInstanceStatus_Phase, p ≠ PHASE_STOPPED →
      "Workspace stopped" ≠ "Workspace " ++ tr p.String := by
    intro p hp heq
    have hs : "Workspace " ++ "stopped" = "Workspace " ++ tr p.String := by
      rw [← heq]
      decide
    exact hlabel p hp (line_cancel _ _ _ hs).symm
  refine ⟨?_, ?_⟩
  · rw [after_trace, displayed_append, displayed_append, displayed_resolveTarget]
    simp only [displayed, List.nil_append, List.mem_append, List.mem_cons, List.mem_singleton,
      List.not_mem_nil, or_false, not_or]
    refine ⟨⟨by decide, by decide, hne phase h1⟩, ?_⟩
    intro hmem
    rcases hlines _ hmem with h | ⟨p, hp, h⟩
    · exact absurd h (by decide)
    · exact hne p hp h
  · intro hproc
    rw [after_outcome,
      (receiveLoop_exhausts tr msgs none "" fun m hm => ⟨hproc m hm, hmsgs m hm⟩).1]
    rfl

/-- The clean close at a concrete run: `PHASE_RUNNING` reported, a
`PHASE_INTERRUPTED` notification and an absent message, then a clean close. -/
theorem clean_close_without_confirmation_witness :
    (reportedPhase (scenario PHASE_RUNNING [notification PHASE_INTERRUPTED, none] none)
          ["ws-1"] = some PHASE_RUNNING ∧
      streamFor (scenario PHASE_RUNNING [notification PHASE_INTERRUPTED, none] none) ["ws-1"] =
        some { msgs := [notification PHASE_INTERRUPTED, none], err := none } ∧
      displayed (RunE TranslateWsPhase false
          (scenario PHASE_RUNNING [notification PHASE_INTERRUPTED, none] none) ["ws-1"]).trace =
        ["Attempting to stop workspace...", "Waiting for workspace to stop...",
          "Workspace Running", "Workspace Interrupted", "No message received"]) ∧
    "Workspace stopped" ∉ displayed (RunE TranslateWsPhase false
        (scenario PHASE_RUNNING [notification PHASE_INTERRUPTED, none] none) ["ws-1"]).trace ∧
    (RunE TranslateWsPhase false
        (scenario PHASE_RUNNING [notification PHASE_INTERRUPTED, none] none) ["ws-1"]).outcome =
      Outcome.returned none :=
  ⟨by decide,
    (clean_close_without_confirmation TranslateWsPhase
      (scenario PHASE_RUNNING [notification PHASE_INTERRUPTED, none] none) ["ws-1"]
      PHASE_RUNNING [notification PHASE_INTERRUPTED, none]
      (by decide) (by decide) (by decide) (by decide) (by decide)
      (by intro p _; cases p <;> decide)).1,
    (clean_close_without_confirmation TranslateWsPhase
      (scenario PHASE_RUNNING [notification PHASE_INTERRUPTED, none] none) ["ws-1"]
      PHASE_RUNNING [notification PHASE_INTERRUPTED, none]
      (by decide) (by decide) (by decide) (by decide) (by decide)
      (by intro p _; cases p <;> decide)).2 (by decide)⟩

/-- The lines of a run of well-formed notifications, none `PHASE_STOPPED`,
never repeat the line before them, the line of the last-displayed label
included. -/
theorem receiveLoop_chain (tr : String → String) (phases : List WorkspaceInstanceStatus_Phase)
    (err : Option String) (prev : String) (h : ∀ p ∈ phases, p ≠ PHASE_STOPPED) :
    List.Chain (fun a b => a ≠ b) ("Workspace " ++ prev)
      (displayed (receiveLoop tr (phases.map notification) err prev).trace) := by
  induction phases generalizing prev with
  | nil => simp [receiveLoop, displayed]
  | cons p ps ih =>
    have hp : p ≠ PHASE_STOPPED := h p (List.mem_cons_self _ _)
    have hps : ∀ q ∈ ps, q ≠ PHASE_STOPPED := fun q hq => h q (List.mem_cons_of_mem _ hq)
    have hbody := loopBody_phase tr prev (notification p) p rfl hp
    rw [List.map_cons, receiveLoop_cons_next tr _ _ err prev _ _ hbody, displayed_after_receive]
    by_cases hl : tr p.String = prev
    · simp only [hl, ne_eq, not_true_eq_false, if_false, displayed, List.nil_append]
      exact ih prev hps
    · simp only [ne_eq, hl, not_false_eq_true, if_true, displayed, List.singleton_append]
      refine List.Chain.cons ?_ (ih _ hps)
      intro heq
      exact hl (line_cancel _ _ _ heq).symm

/-- C9 (strict change-only reporting).  Let two well-formed notifications,
neither `PHASE_STOPPED`, be processed one after the other, from any
last-displayed label.  After the first the last-displayed label is its label;
the second displays its line if and only if its label differs from the label
of the first, and after it the last-displayed label is the label of the second;
the loop goes on from there.  The lines displayed for any sequence of such
notifications never hold the same line twice in a row. -/
theorem change_only_reporting (tr : String → String) (previousStatus : String)
    (first second : WorkspaceInstanceStatus_Phase)
    (hfirst : first ≠ PHASE_STOPPED) (hsecond : second ≠ PHASE_STOPPED) :
    (loopBody tr previousStatus (notification first)).2 = Flow.next (tr first.String) ∧
      loopBody tr (tr first.String) (notification second) =
        (if tr second.String ≠ tr first.String then
            [Event.Println ("Workspace " ++ tr second.String)] else [],
          Flow.next (tr second.String)) ∧
      (displayed (loopBody tr (tr first.String) (notification second)).1 ≠ [] ↔
        tr second.String ≠ tr first.String) ∧
      (∀ (rest : List Notification) (err : Option String),
        receiveLoop tr (notification first :: notification second :: rest) err previousStatus =
          (receiveLoop tr rest err (tr second.String)).after
            ((Event.Receive :: (if tr first.String ≠ previousStatus then
                  [Event.Println ("Workspace " ++ tr first.String)] else [])) ++
              (Event.Receive :: (if tr second.String ≠ tr first.String then
                  [Event.Println ("Workspace " ++ tr second.String)] else [])))) ∧
      (∀ (phases : List WorkspaceInstanceStatus_Phase) (err : Option String),
        (∀ p ∈ phases, p ≠ PHASE_STOPPED) →
        List.Chain' (fun a b => a ≠ b)
          (displayed (receiveLoop tr (phases.map notification) err previousStatus).trace)) := by
  have hb1 := loopBody_phase tr previousStatus (notification first) first rfl hfirst
  have hb2 := loopBody_phase tr (tr first.String) (notification second) second rfl hsecond
  refine ⟨by rw [hb1], hb2, ?_, ?_, ?_⟩
  · rw [hb2]
    by_cases hl : tr second.String = tr first.String <;> simp [hl, displayed]
  · intro rest err
    rw [receiveLoop_cons_next tr _ _ err previousStatus _ _ hb1,
      receiveLoop_cons_next tr _ _ err _ _ _ hb2]
    simp [Run.after]
  · intro phases err hphases
    have hchain := receiveLoop_chain tr phases err previousStatus hphases
    exact List.Chain'.tail (l := _ :: _) hchain

/-- Change-only reporting at concrete phases: `PHASE_RUNNING` twice in a
row. -/
theorem change_only_reporting_witness :
    (PHASE_RUNNING ≠ PHASE_STOPPED ∧
      loopBody TranslateWsPhase "Running" (notification PHASE_RUNNING) =
        ([], Flow.next "Running")) ∧
    ((loopBody TranslateWsPhase "" (notification PHASE_RUNNING)).2 =
        Flow.next (TranslateWsPhase PHASE_RUNNING.String) ∧
      loopBody TranslateWsPhase (TranslateWsPhase PHASE_RUNNING.String)
          (notification PHASE_RUNNING) =
        (if TranslateWsPhase PHASE_RUNNING.String ≠ TranslateWsPhase PHASE_RUNNING.String then
            [Event.Println ("Workspace " ++ TranslateWsPhase PHASE_RUNNING.String)] else [],
          Flow.next (TranslateWsPhase PHASE_RUNNING.String))) :=
  ⟨by decide,
    (change_only_reporting TranslateWsPhase "" PHASE_RUNNING PHASE_RUNNING
      (by decide) (by decide)).1,
    (change_only_reporting TranslateWsPhase "" PHASE_RUNNING PHASE_RUNNING
      (by decide) (by decide)).2.1⟩

/-- Phase lines of the receive loop on well-formed notifications: one per
change of label, counted from the last-displayed label, up to the first
`PHASE_STOPPED`, and one for `Workspace stopped`. -/
theorem receiveLoop_phaseLineCount (tr : String → String)
    (phases : List WorkspaceInstanceStatus_Phase) (err : Option String) (prev : String) :
    phaseLineCount (displayed (receiveLoop tr (phases.map notification) err prev).trace) =
        changes (prev :: (beforeStopped phases).map fun p => tr p.String) +
          (if PHASE_STOPPED ∈ phases then 1 else 0) ∧
      (PHASE_STOPPED ∈ phases →
        (receiveLoop tr (phases.map notification) err prev).outcome = Outcome.returned none) := by
  induction phases generalizing prev with
  | nil => simp [receiveLoop, displayed, phaseLineCount, beforeStopped, changes]
  | cons p ps ih =>
    by_cases hp : p = PHASE_STOPPED
    · subst hp
      rw [List.map_cons, receiveLoop_cons_stopped tr _ _ err prev (by decide)]
      refine ⟨?_, fun _ => rfl⟩
      have hline : List.countP isPhaseLine ["Workspace stopped"] = 1 := by decide
      simp [displayed, phaseLineCount, beforeStopped, changes, hline]
    · have hbody := loopBody_phase tr prev (notification p) p rfl hp
      obtain ⟨ih1, ih2⟩ := ih (tr p.String)
      have hmem : (PHASE_STOPPED ∈ p :: ps) ↔ PHASE_STOPPED ∈ ps := by
        simp [List.mem_cons, Ne.symm hp]
      have hbefore : beforeStopped (p :: ps) = p :: beforeStopped ps := by
        simp [beforeStopped, hp]
      rw [List.map_cons, receiveLoop_cons_next tr _ _ err prev _ _ hbody,
        displayed_after_receive, after_outcome, hbefore]
      refine ⟨?_, fun h => ih2 (hmem.1 h)⟩
      simp only [phaseLineCount, List.countP_append] at ih1 ⊢
      rw [ih1]
      by_cases hl : tr p.String = prev
      · simp [hl, displayed, changes, hmem]
      · have hl' : ¬ prev = tr p.String := fun h => hl h.symm
        simp [hl, hl', displayed, changes, hmem, isPhaseLine_workspace]
        omega

/-- C1 as stated fails: with `PHASE_RUNNING` reported and the notifications
`[RUNNING, STOPPING, STOPPING, STOPPED]` the command displays four phase lines,
`Workspace Running` twice in a row, where the stated invariant counts three:
the first notification repeats the initial phase and is displayed again. -/
theorem dedup_invariant_counterexample :
    displayed (RunE TranslateWsPhase false
        (scenario PHASE_RUNNING
          [notification PHASE_RUNNING, notification PHASE_STOPPING, notification PHASE_STOPPING,
            notification PHASE_STOPPED] none) ["ws-1"]).trace =
        ["Attempting to stop workspace...", "Waiting for workspace to stop...",
          "Workspace Running", "Workspace Running", "Workspace Stopping",
          "Workspace stopped"] ∧
      phaseLineCount (displayed (RunE TranslateWsPhase false
        (scenario PHASE_RUNNING
          [notification PHASE_RUNNING, notification PHASE_STOPPING, notification PHASE_STOPPING,
            notification PHASE_STOPPED] none) ["ws-1"]).trace) = 4 ∧
      statedPhaseLines PHASE_RUNNING
        [PHASE_RUNNING, PHASE_STOPPING, PHASE_STOPPING, PHASE_STOPPED] = 3 ∧
      phaseLineCount (displayed (RunE TranslateWsPhase false
        (scenario PHASE_RUNNING
          [notification PHASE_RUNNING, notification PHASE_STOPPING, notification PHASE_STOPPING,
            notification PHASE_STOPPED] none) ["ws-1"]).trace) ≠
        statedPhaseLines PHASE_RUNNING
          [PHASE_RUNNING, PHASE_STOPPING, PHASE_STOPPING, PHASE_STOPPED] := by
  decide

/-- C1, amended (dedup invariant).  Let the receive loop be entered (do-not-wait
off, reported phase neither `PHASE_STOPPED` nor `PHASE_STOPPING`) on a stream
of well-formed notifications.  The line of the reported phase is displayed
once, and the last-displayed label starts empty.  The number of phase lines
displayed is one for that line, plus the number of label changes in the
sequence formed by the empty label and the labels of the notifications in front
of the first `PHASE_STOPPED`, plus one for `Workspace stopped` when a
`PHASE_STOPPED` notification is present, in which case the command returns nil.
A first notification with a non-empty label is displayed right after the line
of the reported phase, also when it repeats that phase. -/
theorem dedup_invariant (tr : String → String) (env : Env) (args : List String)
    (phase : WorkspaceInstanceStatus_Phase) (phases : List WorkspaceInstanceStatus_Phase)
    (err : Option String)
    (hphase : reportedPhase env args = some phase)
    (h1 : phase ≠ PHASE_STOPPED) (h2 : phase ≠ PHASE_STOPPING)
    (hstream : streamFor env args = some { msgs := phases.map notification, err := err }) :
    phaseLineCount (displayed (RunE tr false env args).trace) =
        1 + changes ("" :: (beforeStopped phases).map fun p => tr p.String) +
          (if PHASE_STOPPED ∈ phases then 1 else 0) ∧
      (PHASE_STOPPED ∈ phases → (RunE tr false env args).outcome = Outcome.returned none) ∧
      (∀ first rest, phases = first :: rest → first ≠ PHASE_STOPPED → tr first.String ≠ "" →
        (displayed (RunE tr false env args).trace).take 4 =
          ["Attempting to stop workspace...", "Waiting for workspace to stop...",
            "Workspace " ++ tr phase.String, "Workspace " ++ tr first.String]) := by
  rw [RunE_of_stream tr env args phase _ hphase h1 h2 hstream]
  obtain ⟨hcount, hout⟩ := receiveLoop_phaseLineCount tr phases err ""
  have hhead : displayed ((resolveTarget env args).1 ++
      [Event.GetGitpodClient, Event.Println "Attempting to stop workspace...",
        Event.StopWorkspace (resolveTarget env args).2,
        Event.StreamWorkspaceStatus (resolveTarget env args).2,
        Event.Println "Waiting for workspace to stop...",
        Event.Println ("Workspace " ++ tr phase.String)]) =
      ["Attempting to stop workspace...", "Waiting for workspace to stop...",
        "Workspace " ++ tr phase.String] := by
    rw [displayed_append, displayed_resolveTarget]
    rfl
  have hfixed : isPhaseLine "Attempting to stop workspace..." = false ∧
      isPhaseLine "Waiting for workspace to stop..." = false := by decide
  refine ⟨?_, ?_, ?_⟩
  · rw [after_trace, displayed_append, hhead]
    simp only [phaseLineCount, List.countP_append] at hcount ⊢
    rw [hcount]
    simp [List.countP_cons, hfixed.1, hfixed.2, isPhaseLine_workspace]
    omega
  · intro h
    rw [after_outcome]
    exact hout h
  · intro first rest hphases hfirst hlabel
    subst hphases
    have hbody := loopBody_phase tr "" (notification first) first rfl hfirst
    rw [after_trace, displayed_append, hhead, List.map_cons,
      receiveLoop_cons_next tr _ _ err "" _ _ hbody, displayed_after_receive]
    simp [hlabel, displayed]

/-- The amended invariant at the concrete run of the scenario: four phase
lines. -/
theorem dedup_invariant_witness :
    (reportedPhase (scenario PHASE_RUNNING ([PHASE_RUNNING, PHASE_STOPPING, PHASE_STOPPING,
          PHASE_STOPPED].map notification) none) ["ws-1"] = some PHASE_RUNNING ∧
      1 + changes ("" :: (beforeStopped [PHASE_RUNNING, PHASE_STOPPING, PHASE_STOPPING,
          PHASE_STOPPED]).map fun p => TranslateWsPhase p.String) +
        (if PHASE_STOPPED ∈ [PHASE_RUNNING, PHASE_STOPPING, PHASE_STOPPING, PHASE_STOPPED]
          then 1 else 0) = 4) ∧
    phaseLineCount (displayed (RunE TranslateWsPhase false
        (scenario PHASE_RUNNING ([PHASE_RUNNING, PHASE_STOPPING, PHASE_STOPPING,
          PHASE_STOPPED].map notification) none) ["ws-1"]).trace) =
      1 + changes ("" :: (beforeStopped [PHASE_RUNNING, PHASE_STOPPING, PHASE_STOPPING,
          PHASE_STOPPED]).map fun p => TranslateWsPhase p.String) +
        (if PHASE_STOPPED ∈ [PHASE_RUNNING, PHASE_STOPPING, PHASE_STOPPING, PHASE_STOPPED]
          then 1 else 0) :=
  ⟨by decide,
    (dedup_invariant TranslateWsPhase
      (scenario PHASE_RUNNING ([PHASE_RUNNING, PHASE_STOPPING, PHASE_STOPPING,
        PHASE_STOPPED].map notification) none) ["ws-1"] PHASE_RUNNING
      [PHASE_RUNNING, PHASE_STOPPING, PHASE_STOPPING, PHASE_STOPPED] none
      (by decide) (by decide) (by decide) (by decide)).1⟩

/-- The part of the skipping rule the loop implements: an absent message (nil)
displays `No message received`, leaves the last-displayed label as it is, and
the loop goes on; the result of the run is the one without the absent message,
and so are the lines displayed, the notice apart. -/
theorem absent_message_is_skipped (tr : String → String) (front later : List Notification)
    (err : Option String) (previousStatus : String) :
    receiveLoop tr (none :: later) err previousStatus =
        (receiveLoop tr later err previousStatus).after
          [Event.Receive, Event.Println "No message received"] ∧
      (receiveLoop tr (front ++ none :: later) err previousStatus).outcome =
        (receiveLoop tr (front ++ later) err previousStatus).outcome ∧
      (displayed (receiveLoop tr (front ++ none :: later) err previousStatus).trace).filter
          (fun line => decide (line ≠ "No message received")) =
        (displayed (receiveLoop tr (front ++ later) err previousStatus).trace).filter
          (fun line => decide (line ≠ "No message received")) := by
  have hskip : ∀ prev, receiveLoop tr (none :: later) err prev =
      (receiveLoop tr later err prev).after
        [Event.Receive, Event.Println "No message received"] := fun prev =>
    receiveLoop_cons_next tr none later err prev prev _ (loopBody_absent tr prev)
  refine ⟨hskip previousStatus, ?_⟩
  induction front generalizing previousStatus with
  | nil =>
    simp only [List.nil_append]
    rw [hskip previousStatus]
    simp [displayed]
  | cons msg rest ih =>
    simp only [List.cons_append]
    unfold receiveLoop
    split
    next out prev' hbody =>
      obtain ⟨ih1, ih2⟩ := ih prev'
      refine ⟨by simpa using ih1, ?_⟩
      rw [displayed_after_receive, displayed_after_receive, List.filter_append,
        List.filter_append, ih2]
    next out hbody => exact ⟨rfl, rfl⟩
    next out hbody => exact ⟨rfl, rfl⟩

/-- C6 on the code: a notification whose result is missing, delivered in front
of a `PHASE_STOPPED` notification, is not skipped.  The command ends in a
nil dereference and `Workspace stopped` is never displayed, whereas without
that notification it displays `Workspace stopped` and returns nil.  A missing
instance or a missing status ends the loop the same way. -/
theorem malformed_notification_crashes :
    (RunE TranslateWsPhase false
        (scenario PHASE_RUNNING [some { Result := none }, notification PHASE_STOPPED] none)
        ["ws-1"]).outcome = Outcome.nilDereference ∧
      displayed (RunE TranslateWsPhase false
        (scenario PHASE_RUNNING [some { Result := none }, notification PHASE_STOPPED] none)
        ["ws-1"]).trace =
        ["Attempting to stop workspace...", "Waiting for workspace to stop...",
          "Workspace Running"] ∧
      (RunE TranslateWsPhase false
        (scenario PHASE_RUNNING [notification PHASE_STOPPED] none) ["ws-1"]).outcome =
        Outcome.returned none ∧
      displayed (RunE TranslateWsPhase false
        (scenario PHASE_RUNNING [notification PHASE_STOPPED] none) ["ws-1"]).trace =
        ["Attempting to stop workspace...", "Waiting for workspace to stop...",
          "Workspace Running", "Workspace stopped"] ∧
      (receiveLoop TranslateWsPhase
        [some { Result := some { Instance := none } }, notification PHASE_STOPPED] none
        "").outcome = Outcome.nilDereference ∧
      (receiveLoop TranslateWsPhase
        [some { Result := some { Instance := some { Status := none } } },
          notification PHASE_STOPPED] none "").outcome = Outcome.nilDereference := by
  decide

/-- C5 on the code: the stream delivers one notification whose result is
missing and then ends with the error `connection reset`; the stream holds no
`PHASE_STOPPED` notification.  The command does not fail with a stream error
that carries `connection reset`: the read at the head of the loop body
dereferences nil, the command ends there after `Workspace Running`, and
`Receive()` is called once only, so the end of the stream is never reached. -/
theorem stream_failure_preempted_by_crash :
    isStopped (some { Result := none }) = false ∧
      (RunE TranslateWsPhase false
        (scenario PHASE_RUNNING [some { Result := none }] (some "connection reset"))
        ["ws-1"]).outcome = Outcome.nilDereference ∧
      (RunE TranslateWsPhase false
        (scenario PHASE_RUNNING [some { Result := none }] (some "connection reset"))
        ["ws-1"]).outcome ≠ Outcome.fatal ("Failed to receive: " ++ "connection reset") ∧
      receiveCount (RunE TranslateWsPhase false
        (scenario PHASE_RUNNING [some { Result := none }] (some "connection reset"))
        ["ws-1"]).trace = 1 ∧
      displayed (RunE TranslateWsPhase false
        (scenario PHASE_RUNNING [some { Result := none }] (some "connection reset"))
        ["ws-1"]).trace =
        ["Attempting to stop workspace...", "Waiting for workspace to stop...",
          "Workspace Running"] := by
  decide

/-- C10 on the code: the stream delivers one notification whose result is
missing and then closes without error; the stream holds no `PHASE_STOPPED`
notification.  The command does not return nil: the read at the head of the
loop body dereferences nil and the command ends there after `Workspace
Running`, whereas on the empty stream with a clean close it returns nil. -/
theorem clean_close_preempted_by_crash :
    isStopped (some { Result := none }) = false ∧
      (RunE TranslateWsPhase false
        (scenario PHASE_RUNNING [some { Result := none }] none) ["ws-1"]).outcome =
        Outcome.nilDereference ∧
      (RunE TranslateWsPhase false
        (scenario PHASE_RUNNING [some { Result := none }] none) ["ws-1"]).outcome ≠
        Outcome.returned none ∧
      displayed (RunE TranslateWsPhase false
        (scenario PHASE_RUNNING [some { Result := none }] none) ["ws-1"]).trace =
        ["Attempting to stop workspace...", "Waiting for workspace to stop...",
          "Workspace Running"] ∧
      (RunE TranslateWsPhase false (scenario PHASE_RUNNING [] none) ["ws-1"]).outcome =
        Outcome.returned none := by
  decide

end WorkspaceStop
